import Mathlib

/-!
Shallow embedding of `generate_release_notes.py` (napari-release-tools).

The script fetches merged pull requests for a milestone from two sources
(the main repository and its docs repository), classifies them by label,
collects contributor role sets, and renders a markdown changelog.

Python dicts are embedded as association lists (insertion order preserved,
keys unique), Python sets as duplicate-free lists grown by
insert-if-absent, and strings at the level of their character lists so
that every definition evaluates inside the kernel.  Machine-level aspects
of Python strings (Unicode case folding, `\w` in regexes) are modelled on
their ASCII fragment, which covers GitHub logins and labels.
-/

/-- A GitHub user object: `.login` and `.name` (the profile display name,
which may be null). -/
structure GHUser where
  login : String
  name : Option String
deriving DecidableEq, Repr

/-- A commit object as used by the script: `.author` and `.committer`,
each possibly null (`repo.get_commit(...)`, lines 117-124). -/
structure Commit where
  author : Option GHUser
  committer : Option GHUser
deriving DecidableEq, Repr

/-- A review event: `.user` may be null (lines 129-132, 156-159). -/
structure Review where
  user : Option GHUser
deriving DecidableEq, Repr

/-- A pull-request-like object from the query collaborator: `.number`,
`.title`, `.labels` (label names), `.merged`, `.merge_commit_sha`,
`.get_reviews()`, and `.as_issue().user` (used by the docs loop). -/
structure PullRequest where
  number : Nat
  title : String
  labels : List String
  merged : Bool
  merge_commit_sha : String
  reviews : List Review
  issue_user : GHUser
deriving DecidableEq, Repr

/-- The `{'summary': ..., "repo": ...}` record stored per PR number in a
section dict (lines 137, 141, 163, 165). -/
structure PRInfo where
  summary : String
  repo : String
deriving DecidableEq, Repr

/-- Python `set.add`: insert a login if absent (membership is what
matters; we keep first-insertion order, which the script never relies on
because rendered sets are sorted). -/
def set_add (s : List String) (x : String) : List String :=
  if x ∈ s then s else s ++ [x]

/-- Python set difference `s -= b` (lines 173-176). -/
def set_diff (s : List String) (b : List String) : List String :=
  s.filter (fun x => !b.contains x)

/-- Python `s.update(t)` / union, folding `set_add`. -/
def set_union (s : List String) (t : List String) : List String :=
  t.foldl set_add s

/-- Python dict assignment `d[k] = v`: overwrite in place when the key
exists, append otherwise. -/
def dict_insert : List (Nat × PRInfo) → Nat → PRInfo → List (Nat × PRInfo)
  | [], k, v => [(k, v)]
  | (k', v') :: rest, k, v =>
    if k' = k then (k, v) :: rest else (k', v') :: dict_insert rest k v

/-- `highlights[section][number] = info` on the outer dict: apply `f` to
the entry at `key`.  Every key the script updates this way is initialised
at start-up (lines 88-96), so the no-op on a missing key is never the
exercised case in a run. -/
def dict_update (hl : List (String × List (Nat × PRInfo))) (key : String)
    (f : List (Nat × PRInfo) → List (Nat × PRInfo)) :
    List (String × List (Nat × PRInfo)) :=
  hl.map (fun p => if p.1 = key then (p.1, f p.2) else p)

/-- `add_to_users` (lines 66-75): skip a login already present; otherwise
resolve the display name by correction table, then profile name, then
login, and append the binding.  `cd` is `correction_dict` (lines 59-63),
passed explicitly instead of read from a global. -/
def add_to_users (cd : List (String × String)) (users : List (String × String))
    (new_user : GHUser) : List (String × String) :=
  if (users.lookup new_user.login).isSome then
    -- reduce obsolete requests to GitHub API
    users
  else
    match cd.lookup new_user.login with
    | some corrected => users ++ [(new_user.login, corrected)]
    | none =>
      match new_user.name with
      | none => users ++ [(new_user.login, new_user.login)]
      | some n => users ++ [(new_user.login, n)]

/-- The ordered label→section table (lines 99-110). -/
def label_to_section : List (String × String) :=
  [("bug", "Bug Fixes"),
   ("bugfix", "Bug Fixes"),
   ("feature", "New Features"),
   ("api", "API Changes"),
   ("highlight", "Highlights"),
   ("performance", "Performance"),
   ("enhancement", "Improvements"),
   ("deprecation", "Deprecations"),
   ("dependencies", "Build Tools"),
   ("documentation", "Documentation")]

/-- The section dicts initialised before processing (lines 86-97), in
insertion order. -/
def initial_highlights : List (String × List (Nat × PRInfo)) :=
  [("Highlights", []),
   ("New Features", []),
   ("Improvements", []),
   ("Performance", []),
   ("Bug Fixes", []),
   ("API Changes", []),
   ("Deprecations", []),
   ("Build Tools", []),
   ("Documentation", []),
   ("Other Pull Requests", [])]

/-- The mutable run state: `users`, the six role sets (lines 78-84), the
section dicts and `other_pull_requests` (lines 86-97). -/
structure RunState where
  users : List (String × String)
  authors : List String
  committers : List String
  docs_authors : List String
  docs_committers : List String
  reviewers : List String
  docs_reviewers : List String
  highlights : List (String × List (Nat × PRInfo))
  other_pull_requests : List (Nat × PRInfo)
deriving DecidableEq, Repr

/-- The state at start-up.  `"Other Pull Requests"` is kept out of
`highlights` until the end of processing (line 169), mirroring the
script. -/
def initial_state : RunState :=
  { users := []
    authors := []
    committers := []
    docs_authors := []
    docs_committers := []
    reviewers := []
    docs_reviewers := []
    highlights := initial_highlights.take 9
    other_pull_requests := [] }

/-- Python `c.lower()` on the ASCII fragment, character by character. -/
def lower_string (s : String) : String :=
  ⟨s.data.map Char.toLower⟩

/-- One review of a primary-source pull request (lines 129-132): a
non-null reviewer is resolved into `users` and recorded in
`reviewers`. -/
def record_review_primary (cd : List (String × String)) (st : RunState)
    (r : Review) : RunState :=
  match r.user with
  | some u => { st with users := add_to_users cd st.users u,
                        reviewers := set_add st.reviewers u.login }
  | none => st

/-- `if commit.committer is not None: ...` (lines 119-121): a non-null
committer is resolved into `users` and recorded in `committers`. -/
def record_committer (cd : List (String × String)) (st : RunState)
    (cu : Option GHUser) : RunState :=
  match cu with
  | some u => { st with users := add_to_users cd st.users u,
                        committers := set_add st.committers u.login }
  | none => st

/-- `if commit.author is not None: ...` (lines 122-124). -/
def record_author (cd : List (String × String)) (st : RunState)
    (au : Option GHUser) : RunState :=
  match au with
  | some u => { st with users := add_to_users cd st.users u,
                        authors := set_add st.authors u.login }
  | none => st

/-- The contributor-recording half of the primary loop body
(lines 117-132), in source order: the merge commit's committer, its
author, then the reviews.  `getCommit` stands for `repo.get_commit`. -/
def record_primary (getCommit : String → Commit) (cd : List (String × String))
    (st : RunState) (pull : PullRequest) : RunState :=
  let commit := getCommit pull.merge_commit_sha
  let st := record_committer cd st commit.committer
  let st := record_author cd st commit.author
  pull.reviews.foldl (record_review_primary cd) st

/-- The classification half of the primary loop body (lines 133-141):
insert the pull request into the section of every table key found among
its lower-cased labels (the loop carries no `break`), and into
`other_pull_requests` when no key matched. -/
def classify_primary (st : RunState) (pull : PullRequest) : RunState :=
  let summary := pull.title
  let pr_lables := pull.labels.map lower_string
  let folded := label_to_section.foldl
    (fun (p : List (String × List (Nat × PRInfo)) × Bool) kv =>
      if pr_lables.contains kv.1 then
        (dict_update p.1 kv.2 (fun d => dict_insert d pull.number ⟨summary, "napari"⟩), true)
      else p)
    (st.highlights, false)
  if folded.2 then { st with highlights := folded.1 }
  else { st with
    other_pull_requests := dict_insert st.other_pull_requests pull.number ⟨summary, "napari"⟩ }

/-- The body of the primary-source loop (lines 113-141): a failed
`assert pull.merged` aborts the run with an error before any recording or
classification. -/
def process_primary (getCommit : String → Commit) (cd : List (String × String))
    (st : RunState) (pull : PullRequest) : Except String RunState :=
  if !pull.merged then .error "assert pull.merged"
  else .ok (classify_primary (record_primary getCommit cd st pull) pull)

/-- One review of a docs-source pull request (lines 156-159). -/
def record_review_docs (cd : List (String × String)) (st : RunState)
    (r : Review) : RunState :=
  match r.user with
  | some u => { st with users := add_to_users cd st.users u,
                        docs_reviewers := set_add st.docs_reviewers u.login }
  | none => st

/-- The contributor-recording half of the docs loop body (lines 148-159):
the issue's opening user is a docs author, then the reviews. -/
def record_docs (cd : List (String × String)) (st : RunState)
    (pull : PullRequest) : RunState :=
  let st := { st with users := add_to_users cd st.users pull.issue_user,
                      docs_authors := set_add st.docs_authors pull.issue_user.login }
  pull.reviews.foldl (record_review_docs cd) st

/-- The classification half of the docs loop body (lines 160-165): a
`maintenance` label routes to `other_pull_requests`, anything else to
`"Documentation"`; the generic table is not consulted. -/
def classify_docs (st : RunState) (pull : PullRequest) : RunState :=
  let summary := pull.title
  let pr_lables := pull.labels.map lower_string
  if pr_lables.contains "maintenance" then
    { st with
      other_pull_requests := dict_insert st.other_pull_requests pull.number ⟨summary, "docs"⟩ }
  else
    { st with
      highlights := dict_update st.highlights "Documentation"
        (fun d => dict_insert d pull.number ⟨summary, "docs"⟩) }

/-- The body of the docs-source loop (lines 144-165). -/
def process_docs (cd : List (String × String)) (st : RunState)
    (pull : PullRequest) : Except String RunState :=
  if !pull.merged then .error "assert pull.merged"
  else .ok (classify_docs (record_docs cd st pull) pull)

/-- Modelled from the spec: `BOT_LIST` lives in `release_utils.py`, which
is not under `src/`; the spec describes it as "a fixed set of known
non-human account logins excluded from contributor credit".  Its exact
members are unspecified; known napari CI bot logins stand in for them. -/
def BOT_LIST : List String :=
  ["github-actions[bot]", "dependabot[bot]", "pre-commit-ci[bot]", "napari-bot"]

/-- End-of-processing fix-up (lines 168-176): append
`"Other Pull Requests"` to the ordered section dict and subtract
`BOT_LIST` from `committers`, `authors`, `docs_committers` and
`docs_authors` (the script does not subtract it from `reviewers` or
`docs_reviewers`). -/
def finalize (st : RunState) : RunState :=
  { st with
    highlights := st.highlights ++ [("Other Pull Requests", st.other_pull_requests)]
    committers := set_diff st.committers BOT_LIST
    authors := set_diff st.authors BOT_LIST
    docs_committers := set_diff st.docs_committers BOT_LIST
    docs_authors := set_diff st.docs_authors BOT_LIST }

/-- Both loops followed by the fix-up: the whole processing phase of a
run, over explicit lists of pull requests from the two sources. -/
def generate_state (getCommit : String → Commit) (cd : List (String × String))
    (primary docs : List PullRequest) : Except String RunState := do
  let st ← primary.foldlM (process_primary getCommit cd) initial_state
  let st ← docs.foldlM (process_docs cd) st
  pure (finalize st)

/-- Decimal digit extraction with structural fuel, so that the kernel can
evaluate it; `fuel` bounds the number of divisions by 10 and `n + 1` is
always enough. -/
def nat_digits_fuel : Nat → Nat → List Char
  | 0, _ => []
  | fuel + 1, n =>
    if n < 10 then [Nat.digitChar n]
    else nat_digits_fuel fuel (n / 10) ++ [Nat.digitChar (n % 10)]

/-- Decimal rendering of a pull-request number or a count, as Python
interpolates an `int` into an f-string. -/
def nat_digits (n : Nat) : List Char :=
  nat_digits_fuel (n + 1) n

/-- `nat_digits` packaged as a string. -/
def nat_to_string (n : Nat) : String :=
  ⟨nat_digits n⟩

/-- Modelled from the spec: the host constant `GH` from
`release_utils.py` (not under `src/`); the spec's website pointer is
`https://github.com/napari/napari`. -/
def GH : String := "github.com"

/-- Modelled from the spec: the organisation constant `GH_USER` from
`release_utils.py` (not under `src/`). -/
def GH_USER : String := "napari"

/-- Modelled from the spec: the repository constant `GH_REPO` from
`release_utils.py` (not under `src/`). -/
def GH_REPO : String := "napari"

/-- A `\w` character of the pattern `@([\w-]+)` (line 179), on the ASCII
fragment: letters, digits, underscore. -/
def is_word_char (c : Char) : Bool :=
  c.isAlphanum || c = '_'

/-- A character of the class `[\w-]`. -/
def is_mention_char (c : Char) : Bool :=
  is_word_char c || c = '-'

/-- The scanning core of `re.findall(r"@([\w-]+)", text)`: left-to-right
over the characters, `acc = some tok` when the scanner stands right after
an `@` followed by the reversed run `tok` of `[\w-]` characters read so
far; a maximal nonempty run is emitted as a match, and a fresh `@`
restarts the run state. -/
def scan_go : List Char → Option (List Char) → List (List Char)
  | [], none => []
  | [], some acc => if acc = [] then [] else [acc.reverse]
  | c :: rest, none =>
    if c = '@' then scan_go rest (some [])
    else scan_go rest none
  | c :: rest, some acc =>
    if is_mention_char c then scan_go rest (some (c :: acc))
    else
      let out := if c = '@' then scan_go rest (some []) else scan_go rest none
      if acc = [] then out else acc.reverse :: out

/-- `re.findall(r"@([\w-]+)", text)` (lines 179, 192): every maximal
nonempty run of `[\w-]` characters standing right after an `@`, in text
order. -/
def scan_mentions (text : List Char) : List (List Char) :=
  scan_go text none

/-- The `@login` mentions of a text, as strings. -/
def mentions_of (text : String) : List String :=
  (scan_mentions text.data).map (fun l => ⟨l⟩)

/-- The `old_contributors` scan (lines 181-192): union the `@login`
mentions of every previously written report file.  The filesystem glob is
outside the embedding; `prior_files` is the list of the contents of the
files `release_*.md` found in the target directory, excluding the file
being written this run. -/
def old_contributors_of (prior_files : List String) : List String :=
  prior_files.foldl (fun acc text => set_union acc (mentions_of text)) []

/-- The output mode: `none` is stream output (`target_directory is None`,
line 183, where no prior files are scanned), `some prior_files` is file
output with the given prior report contents. -/
def old_contributors_for_mode : Option (List String) → List String
  | none => []
  | some prior_files => old_contributors_of prior_files

/-- `res_file_name` (line 186): `f"release_{milestone.replace('.', '_')}.md"`;
the single-character replace is performed character by character. -/
def res_file_name (milestone : String) : String :=
  "release_" ++ ⟨milestone.data.map (fun c => if c = '.' then '_' else c)⟩ ++ ".md"

/-- One pull-request bullet (line 222). -/
def render_pr_line (number : Nat) (info : PRInfo) : String :=
  "- " ++ info.summary ++ " ([napari/" ++ info.repo ++ "/#" ++ nat_to_string number
    ++ "](https://" ++ GH ++ "/" ++ GH_USER ++ "/" ++ info.repo ++ "/pull/"
    ++ nat_to_string number ++ "))"

/-- The section blocks (lines 218-223): per section a heading, a blank
line, the bullets in insertion order, a blank line. -/
def render_sections (hl : List (String × List (Nat × PRInfo))) : List String :=
  hl.flatMap (fun p =>
    ("## " ++ p.1) :: "" :: (p.2.map (fun e => render_pr_line e.1 e.2) ++ [""]))

/-- `users[c]` during rendering.  The default is never exercised on a run
state (every rendered login is a key of `users`); it totalises the
embedding of a lookup that would raise `KeyError` in Python. -/
def lookup_name (users : List (String × String)) (c : String) : String :=
  (users.lookup c).getD c

/-- One contributor bullet (lines 247-248, 260-261). -/
def contributor_line (users : List (String × String)) (c : String) : String :=
  "- [" ++ lookup_name users c ++ "](https://" ++ GH ++ "/" ++ GH_USER ++ "/"
    ++ GH_REPO ++ "/commits?author=" ++ c ++ ") - @" ++ c

/-- The sort key `users[x].lower()` as its character list: Python
compares key strings lexicographically by code point, which is the
lexicographic order on `List Char`. -/
def name_key (users : List (String × String)) (c : String) : List Char :=
  (lower_string (lookup_name users c)).data

/-- `sorted(contributor_set, key=lambda x: users[x].lower())`
(lines 246, 259): a stable sort under the case-insensitive display-name
key. -/
def sort_by_name (users : List (String × String)) (s : List String) : List String :=
  s.insertionSort (fun a b => name_key users a ≤ name_key users b)

/-- One role-set block (lines 235-249): a blank line, the counting
heading, a blank line, the sorted bullets, a blank line.  (`None` is
never an element here: logins in the embedding are strings.) -/
def render_role (users : List (String × String)) (section_name : String)
    (s : List String) : List String :=
  "" :: ("## " ++ nat_to_string s.length ++ " " ++ section_name
      ++ " added to this release (alphabetical)")
    :: "" :: ((sort_by_name users s).map (contributor_line users) ++ [""])

/-- The four rendered role sets in order (lines 226-233): authors,
reviewers, docs authors, docs reviewers; committers are ignored. -/
def render_contributors (st : RunState) : List String :=
  render_role st.users "authors" st.authors
    ++ render_role st.users "reviewers" st.reviewers
    ++ render_role st.users "docs authors" st.docs_authors
    ++ render_role st.users "docs reviewers" st.docs_reviewers

/-- `new_contributors` (line 251). -/
def new_contributors (st : RunState) (old : List String) : List String :=
  set_diff (set_union st.authors st.docs_authors) old

/-- The conditional "New Contributors" block (lines 254-261): rendered
only when both `old_contributors` and `new_contributors` are nonempty
(Python truthiness of the two sets). -/
def render_new_contributors (st : RunState) (old : List String) : List String :=
  let nc := new_contributors st old
  if old ≠ [] ∧ nc ≠ [] then
    "## New Contributors" :: ""
      :: ("There are " ++ nat_to_string nc.length ++ " new contributors for this release:")
      :: "" :: (sort_by_name st.users nc).map (contributor_line st.users)
  else []

/-- The static introduction block (lines 199-208): the f-string's lines,
with the milestone interpolated, plus the blank line `print` appends. -/
def intro_lines (milestone : String) : List String :=
  ["",
   "We're happy to announce the release of napari " ++ milestone ++ "!",
   "napari is a fast, interactive, multi-dimensional image viewer for Python.",
   "It's designed for browsing, annotating, and analyzing large multi-dimensional",
   "images. It's built on top of Qt (for the GUI), vispy (for performant GPU-based",
   "rendering), and the scientific Python stack (numpy, scipy).",
   ""]

/-- The static website block (lines 210-216). -/
def website_lines : List String :=
  ["",
   "For more information, examples, and documentation, please visit our website:",
   "https://github.com/napari/napari",
   ""]

/-- The whole rendered document as its list of printed lines
(lines 195-261), for a finalized run state and an `old_contributors`
set. -/
def render_notes (milestone : String) (st : RunState) (old : List String) : List String :=
  ("# napari " ++ milestone)
    :: intro_lines milestone
    ++ website_lines
    ++ render_sections st.highlights
    ++ render_contributors st
    ++ render_new_contributors st old

/-- The text written to the output: every printed line followed by a
newline. -/
def notes_text (lines : List String) : String :=
  ⟨(lines.map (fun l => l.data ++ ['\n'])).flatten⟩

/-! ### Lookup helpers -/

theorem lookup_append_single_self (users : List (String × String)) (k v : String)
    (h : users.lookup k = none) : (users ++ [(k, v)]).lookup k = some v := by
  rw [List.lookup_append, h]
  simp [List.lookup]

theorem lookup_append_single_mono (users : List (String × String)) (p : String × String)
    {l n : String} (h : users.lookup l = some n) : (users ++ [p]).lookup l = some n := by
  rw [List.lookup_append, h]
  rfl

/-- A login already present is never re-resolved: the call returns the
mapping unchanged. -/
theorem add_to_users_of_isSome (cd users : List (String × String)) (u : GHUser)
    (h : (users.lookup u.login).isSome) : add_to_users cd users u = users := by
  simp [add_to_users, h]

/-- After `add_to_users`, the login is a key of the mapping. -/
theorem add_to_users_lookup_self (cd users : List (String × String)) (u : GHUser) :
    ((add_to_users cd users u).lookup u.login).isSome := by
  by_cases hs : (users.lookup u.login).isSome
  · rw [add_to_users_of_isSome cd users u hs]
    exact hs
  · have hn : users.lookup u.login = none := Option.not_isSome_iff_eq_none.mp hs
    unfold add_to_users
    rw [if_neg (by simp [hn])]
    cases hc : cd.lookup u.login <;> cases hm : u.name <;>
      simp [lookup_append_single_self users _ _ hn]

/-- `users` only grows: an existing binding survives `add_to_users`. -/
theorem add_to_users_mono (cd users : List (String × String)) (u : GHUser)
    {l n : String} (h : users.lookup l = some n) :
    (add_to_users cd users u).lookup l = some n := by
  by_cases hs : (users.lookup u.login).isSome
  · rw [add_to_users_of_isSome cd users u hs]
    exact h
  · have hn : users.lookup u.login = none := Option.not_isSome_iff_eq_none.mp hs
    unfold add_to_users
    rw [if_neg (by simp [hn])]
    cases hc : cd.lookup u.login <;> cases hm : u.name <;>
      simp [lookup_append_single_mono users _ h]

/-! ### Claims C4, C7, C8 -/

/-- C4: once a login is a key of `users`, `add_to_users` returns without
re-resolving; the mapping only grows (existing bindings survive
unchanged); and a second call for the same login is a no-op, so two pull
requests by the same login trigger exactly one resolution. -/
theorem c4_resolution_at_most_once (cd users : List (String × String)) (u u' : GHUser)
    (h : u.login = u'.login) :
    ((users.lookup u.login).isSome → add_to_users cd users u = users) ∧
    add_to_users cd (add_to_users cd users u) u' = add_to_users cd users u ∧
    (∀ l n, users.lookup l = some n → (add_to_users cd users u).lookup l = some n) := by
  refine ⟨fun hs => add_to_users_of_isSome cd users u hs, ?_,
    fun l n hl => add_to_users_mono cd users u hl⟩
  apply add_to_users_of_isSome
  rw [← h]
  exact add_to_users_lookup_self cd users u

theorem c4_resolution_at_most_once_witness :
    GHUser.login ⟨"alice", none⟩ = GHUser.login ⟨"alice", none⟩ ∧
    add_to_users [] (add_to_users [] [] ⟨"alice", none⟩) ⟨"alice", none⟩
      = add_to_users [] [] ⟨"alice", none⟩ :=
  ⟨rfl, (c4_resolution_at_most_once [] [] ⟨"alice", none⟩ ⟨"alice", none⟩ rfl).2.1⟩

/-- C7: for a login not yet in the directory, the resolved display name
is the correction-table entry if the login is a key there, else the
profile display name if non-null, else the login itself. -/
theorem c7_display_name_priority (cd users : List (String × String)) (u : GHUser)
    (h : users.lookup u.login = none) :
    (add_to_users cd users u).lookup u.login =
      some ((cd.lookup u.login).getD (u.name.getD u.login)) := by
  unfold add_to_users
  rw [if_neg (by simp [h])]
  cases hc : cd.lookup u.login <;> cases hm : u.name <;>
    simp [lookup_append_single_self users _ _ h]

theorem c7_display_name_priority_witness :
    ([] : List (String × String)).lookup "alice" = none ∧
    (add_to_users [("alice", "Alice Corrected")] [] ⟨"alice", some "Profile Name"⟩).lookup "alice"
      = some "Alice Corrected" :=
  ⟨rfl, by
    simpa using
      c7_display_name_priority [("alice", "Alice Corrected")] [] ⟨"alice", some "Profile Name"⟩ rfl⟩

/-- C8: a pull request whose `merged` flag is false makes either loop
body abort with the assertion error, before any classification or
contributor recording. -/
theorem c8_unmerged_is_fatal (getCommit : String → Commit) (cd : List (String × String))
    (st : RunState) (pull : PullRequest) (h : pull.merged = false) :
    process_primary getCommit cd st pull = .error "assert pull.merged" ∧
    process_docs cd st pull = .error "assert pull.merged" := by
  constructor <;> simp [process_primary, process_docs, h]

theorem c8_unmerged_is_fatal_witness :
    PullRequest.merged ⟨7, "t", [], false, "sha", [], ⟨"d", none⟩⟩ = false ∧
    process_primary (fun _ => ⟨none, none⟩) [] initial_state
        ⟨7, "t", [], false, "sha", [], ⟨"d", none⟩⟩ = .error "assert pull.merged" :=
  ⟨rfl, (c8_unmerged_is_fatal (fun _ => ⟨none, none⟩) [] initial_state
      ⟨7, "t", [], false, "sha", [], ⟨"d", none⟩⟩ rfl).1⟩

/-! ### Claim C9 -/

/-- The file name as the claim's words describe it: every non-alphanumeric
character of the milestone normalized to underscore. -/
def res_file_name_claim (milestone : String) : String :=
  "release_" ++ ⟨milestone.data.map (fun c => if c.isAlphanum then c else '_')⟩ ++ ".md"

/-- C9 counterexample: for the milestone `"0.15-rc"` the code keeps the
hyphen (`release_0_15-rc.md`), while normalizing every non-alphanumeric
separator to underscore would give `release_0_15_rc.md`. -/
theorem c9_counterexample :
    res_file_name "0.15-rc" = "release_0_15-rc.md" ∧
    res_file_name_claim "0.15-rc" = "release_0_15_rc.md" ∧
    res_file_name "0.15-rc" ≠ res_file_name_claim "0.15-rc" := by
  refine ⟨by decide, by decide, by decide⟩

/-- C9 amended: the output file name replaces exactly the dots of the
milestone by underscores; on milestones whose only non-alphanumeric
characters are dots this agrees with normalizing every non-alphanumeric
character to underscore. -/
theorem c9_amended (m : String) (h : ∀ c ∈ m.data, c.isAlphanum ∨ c = '.') :
    res_file_name m = res_file_name_claim m := by
  unfold res_file_name res_file_name_claim
  have : m.data.map (fun c => if c = '.' then '_' else c)
      = m.data.map (fun c => if c.isAlphanum then c else '_') := by
    apply List.map_congr_left
    intro c hc
    rcases h c hc with ha | hd
    · have hne : c ≠ '.' := by
        intro he
        rw [he] at ha
        exact absurd ha (by decide)
      simp [hne, ha]
    · subst hd
      decide
  rw [this]

theorem c9_amended_witness :
    (∀ c ∈ "0.15.0".data, c.isAlphanum ∨ c = '.') ∧
    res_file_name "0.15.0" = res_file_name_claim "0.15.0" :=
  ⟨by decide, c9_amended "0.15.0" (by decide)⟩

/-! ### Claim C6 -/

/-- C6: every rendered contributor bullet list is sorted by the
case-insensitive resolved display name (not by the login): the sort is a
permutation of the set that is pairwise ordered under the lower-cased
display-name key, and the users `{login:"b", name:"Alice"}`,
`{login:"a", name:"bob"}` render Alice (login `b`) before bob
(login `a`). -/
theorem c6_sorted_by_display_name (users : List (String × String)) (s : List String) :
    List.Pairwise (fun a b => name_key users a ≤ name_key users b) (sort_by_name users s)
    ∧ (sort_by_name users s).Perm s
    ∧ sort_by_name [("b", "Alice"), ("a", "bob")] ["a", "b"] = ["b", "a"] := by
  refine ⟨?_, List.perm_insertionSort _ s, by decide⟩
  haveI : IsTotal String (fun a b => name_key users a ≤ name_key users b) :=
    ⟨fun a b => le_total (name_key users a) (name_key users b)⟩
  haveI : IsTrans String (fun a b => name_key users a ≤ name_key users b) :=
    ⟨fun _ _ _ hab hbc => le_trans hab hbc⟩
  exact List.sorted_insertionSort _ s

/-! ### Claim C1 -/

/-- The sections of the table keys present among the lower-cased labels,
in table order. -/
def matched_sections (lbls : List String) : List String :=
  (label_to_section.filter (fun kv => lbls.contains kv.1)).map Prod.snd

/-- The classification the claim describes: the section of the first
table key present in the label set, or `"Other Pull Requests"`. -/
def first_match_section (lbls : List String) : String :=
  match label_to_section.find? (fun kv => lbls.contains kv.1) with
  | some kv => kv.2
  | none => "Other Pull Requests"

/-- The names of the sections whose dict holds an entry for a PR
number. -/
def sections_containing (st : RunState) (n : Nat) : List String :=
  (st.highlights.filter (fun p => (p.2.lookup n).isSome)).map Prod.fst

theorem classify_fold_true (lbls : List String) (f : List (Nat × PRInfo) → List (Nat × PRInfo))
    (T : List (String × String)) (hl : List (String × List (Nat × PRInfo))) :
    T.foldl (fun p kv => if lbls.contains kv.1 then (dict_update p.1 kv.2 f, true) else p) (hl, true)
      = (((T.filter (fun kv => lbls.contains kv.1)).map Prod.snd).foldl
          (fun h s => dict_update h s f) hl, true) := by
  induction T generalizing hl with
  | nil => rfl
  | cons kv T ih =>
    by_cases hc : lbls.contains kv.1
    · simp only [List.foldl_cons, hc, if_true, List.filter_cons, List.map_cons]
      exact ih (dict_update hl kv.2 f)
    · simp only [List.foldl_cons, hc, Bool.false_eq_true, if_false, List.filter_cons]
      exact ih hl

theorem classify_fold (lbls : List String) (f : List (Nat × PRInfo) → List (Nat × PRInfo))
    (T : List (String × String)) (hl : List (String × List (Nat × PRInfo))) :
    T.foldl (fun p kv => if lbls.contains kv.1 then (dict_update p.1 kv.2 f, true) else p) (hl, false)
      = if (T.filter (fun kv => lbls.contains kv.1)).isEmpty
        then (hl, false)
        else (((T.filter (fun kv => lbls.contains kv.1)).map Prod.snd).foldl
            (fun h s => dict_update h s f) hl, true) := by
  induction T generalizing hl with
  | nil => rfl
  | cons kv T ih =>
    by_cases hc : lbls.contains kv.1
    · simp only [List.foldl_cons, hc, if_true, List.filter_cons, List.isEmpty_cons, List.map_cons]
      rw [classify_fold_true]
      simp
    · simp only [List.foldl_cons, hc, Bool.false_eq_true, if_false, List.filter_cons]
      exact ih hl

/-- What the classification half does to the two section stores, stated
through `matched_sections`. -/
theorem classify_primary_eq (st : RunState) (pull : PullRequest) :
    (classify_primary st pull).highlights
      = (matched_sections (pull.labels.map lower_string)).foldl
          (fun hl sec => dict_update hl sec
            (fun d => dict_insert d pull.number ⟨pull.title, "napari"⟩)) st.highlights
    ∧ (classify_primary st pull).other_pull_requests
      = (if (matched_sections (pull.labels.map lower_string)).isEmpty
         then dict_insert st.other_pull_requests pull.number ⟨pull.title, "napari"⟩
         else st.other_pull_requests) := by
  unfold classify_primary
  dsimp only
  rw [classify_fold]
  by_cases he : ((label_to_section.filter
      (fun kv => (pull.labels.map lower_string).contains kv.1))).isEmpty
  · have hm : matched_sections (pull.labels.map lower_string) = [] := by
      unfold matched_sections
      rw [List.isEmpty_iff] at he
      rw [he, List.map_nil]
    rw [if_pos he]
    simp [hm]
  · have hf : (label_to_section.filter
        (fun kv => (pull.labels.map lower_string).contains kv.1)) ≠ [] := by
      intro h0
      exact he (by rw [h0]; rfl)
    have hm : (matched_sections (pull.labels.map lower_string)).isEmpty = false := by
      unfold matched_sections
      rw [List.isEmpty_eq_false]
      simpa using hf
    rw [if_neg he]
    constructor
    · simp [matched_sections]
    · simp [hm]

/-- C1 counterexample: the merged pull request number 1 labelled
`["bug", "feature"]` is placed into two sections, `"New Features"` and
`"Bug Fixes"` (the classification loop has no `break`), refuting both
"exactly one section" and "the section of the first matching key"
(`first_match_section` would give `"Bug Fixes"` alone). -/
theorem c1_counterexample :
    first_match_section (["bug", "feature"].map lower_string) = "Bug Fixes" ∧
    (process_primary (fun _ => ⟨none, none⟩) [] initial_state
        ⟨1, "t", ["bug", "feature"], true, "sha", [], ⟨"d", none⟩⟩).toOption.map
      (fun st => sections_containing st 1) = some ["New Features", "Bug Fixes"] := by
  constructor
  · decide
  · decide

/-- C1 amended: a merged pull request from the primary source is placed
into the section of every table key present in its lower-cased label set
(in table order, with no `break`, so several matching labels place it in
several sections), and into `"Other Pull Requests"` exactly when no
table key is present. -/
theorem c1_amended (getCommit : String → Commit) (cd : List (String × String))
    (st : RunState) (pull : PullRequest) (h : pull.merged = true) :
    ∃ st', process_primary getCommit cd st pull = .ok st' ∧
      st'.highlights
        = (matched_sections (pull.labels.map lower_string)).foldl
            (fun hl sec => dict_update hl sec
              (fun d => dict_insert d pull.number ⟨pull.title, "napari"⟩))
            (record_primary getCommit cd st pull).highlights
      ∧ st'.other_pull_requests
        = (if (matched_sections (pull.labels.map lower_string)).isEmpty
           then dict_insert (record_primary getCommit cd st pull).other_pull_requests
              pull.number ⟨pull.title, "napari"⟩
           else (record_primary getCommit cd st pull).other_pull_requests) := by
  refine ⟨classify_primary (record_primary getCommit cd st pull) pull, ?_, ?_, ?_⟩
  · simp [process_primary, h]
  · exact (classify_primary_eq _ pull).1
  · exact (classify_primary_eq _ pull).2

theorem c1_amended_witness :
    PullRequest.merged ⟨1, "t", ["bug", "feature"], true, "sha", [], ⟨"d", none⟩⟩ = true ∧
    ∃ st', process_primary (fun _ => ⟨none, none⟩) [] initial_state
        ⟨1, "t", ["bug", "feature"], true, "sha", [], ⟨"d", none⟩⟩ = .ok st' ∧
      st'.highlights
        = (matched_sections ((["bug", "feature"] : List String).map lower_string)).foldl
            (fun hl sec => dict_update hl sec
              (fun d => dict_insert d 1 ⟨"t", "napari"⟩))
            (record_primary (fun _ => ⟨none, none⟩) [] initial_state
              ⟨1, "t", ["bug", "feature"], true, "sha", [], ⟨"d", none⟩⟩).highlights
      ∧ st'.other_pull_requests
        = (if (matched_sections ((["bug", "feature"] : List String).map lower_string)).isEmpty
           then dict_insert (record_primary (fun _ => ⟨none, none⟩) [] initial_state
              ⟨1, "t", ["bug", "feature"], true, "sha", [], ⟨"d", none⟩⟩).other_pull_requests
              1 ⟨"t", "napari"⟩
           else (record_primary (fun _ => ⟨none, none⟩) [] initial_state
              ⟨1, "t", ["bug", "feature"], true, "sha", [], ⟨"d", none⟩⟩).other_pull_requests) :=
  ⟨rfl, c1_amended (fun _ => ⟨none, none⟩) [] initial_state
    ⟨1, "t", ["bug", "feature"], true, "sha", [], ⟨"d", none⟩⟩ rfl⟩

/-! ### Claim C2 -/

/-- C2 counterexample: `napari-bot` is a bot login; on a run whose single
primary pull request was reviewed by `napari-bot`, the bot survives into
the finalized `reviewers` set and its bullet line is part of the rendered
document — the script subtracts `BOT_LIST` only from `committers`,
`authors`, `docs_committers` and `docs_authors` (lines 172-176), not from
the rendered `reviewers`/`docs reviewers` sets. -/
theorem c2_counterexample :
    "napari-bot" ∈ BOT_LIST ∧
    (generate_state (fun _ => ⟨some ⟨"alice", none⟩, some ⟨"alice", none⟩⟩) []
        [⟨1, "t", [], true, "sha", [⟨some ⟨"napari-bot", none⟩⟩], ⟨"d", none⟩⟩] []).toOption.map
      (fun st => decide ("napari-bot" ∈ st.reviewers)
        && decide (contributor_line st.users "napari-bot" ∈ render_notes "0.1" st []))
      = some true := by
  constructor
  · decide
  · decide

/-- C2 amended: after both sources are exhausted, the fixed bot set is
subtracted from the `authors`, `committers`, `docs_authors` and
`docs_committers` sets only — so a bot never appears in the rendered
authors or docs-authors bullet lists — while the `reviewers` and
`docs_reviewers` sets are left untouched, so a bot that reviewed pull
requests still appears in the rendered reviewers bullet lists. -/
theorem c2_amended (st : RunState) (b : String) (h : b ∈ BOT_LIST) :
    b ∉ (finalize st).authors ∧ b ∉ (finalize st).committers ∧
    b ∉ (finalize st).docs_authors ∧ b ∉ (finalize st).docs_committers ∧
    (finalize st).reviewers = st.reviewers ∧
    (finalize st).docs_reviewers = st.docs_reviewers := by
  refine ⟨?_, ?_, ?_, ?_, rfl, rfl⟩ <;>
  · intro hmem
    have hc := (List.mem_filter.mp hmem).2
    simp [h] at hc

theorem c2_amended_witness :
    "napari-bot" ∈ BOT_LIST ∧
    "napari-bot" ∉ (finalize initial_state).authors :=
  ⟨by decide, (c2_amended initial_state "napari-bot" (by decide)).1⟩

/-! ### Claim C10 -/

theorem mem_set_add {s : List String} {x c : String} (h : c ∈ set_add s x) :
    c ∈ s ∨ c = x := by
  by_cases hx : x ∈ s
  · exact Or.inl (by simpa [set_add, hx] using h)
  · simp only [set_add, hx, if_false] at h
    rcases List.mem_append.mp h with h | h
    · exact Or.inl h
    · exact Or.inr (List.mem_singleton.mp h)

theorem mem_set_union {s t : List String} {c : String} (h : c ∈ set_union s t) :
    c ∈ s ∨ c ∈ t := by
  induction t generalizing s with
  | nil => exact Or.inl h
  | cons x t ih =>
    rcases ih (by simpa [set_union] using h) with h' | h'
    · rcases mem_set_add h' with h'' | h''
      · exact Or.inl h''
      · exact Or.inr (by simp [h''])
    · exact Or.inr (by simp [h'])

theorem mem_set_diff {s b : List String} {c : String} (h : c ∈ set_diff s b) : c ∈ s :=
  (List.mem_filter.mp h).1

theorem add_to_users_isSome_mono (cd users : List (String × String)) (u : GHUser)
    {c : String} (h : (users.lookup c).isSome) :
    ((add_to_users cd users u).lookup c).isSome := by
  obtain ⟨n, hn⟩ := Option.isSome_iff_exists.mp h
  rw [add_to_users_mono cd users u hn]
  rfl

/-- The invariant behind C10: every login recorded in a role set is a key
of `users` (each `set.add` in the script is preceded by `add_to_users`
for the same user). -/
def users_cover (st : RunState) : Prop :=
  (∀ c ∈ st.authors, (st.users.lookup c).isSome) ∧
  (∀ c ∈ st.committers, (st.users.lookup c).isSome) ∧
  (∀ c ∈ st.docs_authors, (st.users.lookup c).isSome) ∧
  (∀ c ∈ st.reviewers, (st.users.lookup c).isSome) ∧
  (∀ c ∈ st.docs_reviewers, (st.users.lookup c).isSome)

theorem cover_mono_users (cd users : List (String × String)) (u : GHUser)
    (s : List String) (hs : ∀ c ∈ s, (users.lookup c).isSome) :
    ∀ c ∈ s, ((add_to_users cd users u).lookup c).isSome :=
  fun c hc => add_to_users_isSome_mono cd users u (hs c hc)

theorem cover_set_add (cd users : List (String × String)) (u : GHUser)
    (s : List String) (hs : ∀ c ∈ s, (users.lookup c).isSome) :
    ∀ c ∈ set_add s u.login, ((add_to_users cd users u).lookup c).isSome := by
  intro c hc
  rcases mem_set_add hc with h | h
  · exact add_to_users_isSome_mono cd users u (hs c h)
  · subst h
    exact add_to_users_lookup_self cd users u

theorem record_review_primary_cover (cd : List (String × String)) (st : RunState)
    (r : Review) (h : users_cover st) : users_cover (record_review_primary cd st r) := by
  obtain ⟨ha, hc, hd, hr, hdr⟩ := h
  unfold record_review_primary
  cases r.user with
  | none => exact ⟨ha, hc, hd, hr, hdr⟩
  | some u =>
    exact ⟨cover_mono_users cd st.users u _ ha, cover_mono_users cd st.users u _ hc,
      cover_mono_users cd st.users u _ hd, cover_set_add cd st.users u _ hr,
      cover_mono_users cd st.users u _ hdr⟩

theorem record_review_docs_cover (cd : List (String × String)) (st : RunState)
    (r : Review) (h : users_cover st) : users_cover (record_review_docs cd st r) := by
  obtain ⟨ha, hc, hd, hr, hdr⟩ := h
  unfold record_review_docs
  cases r.user with
  | none => exact ⟨ha, hc, hd, hr, hdr⟩
  | some u =>
    exact ⟨cover_mono_users cd st.users u _ ha, cover_mono_users cd st.users u _ hc,
      cover_mono_users cd st.users u _ hd, cover_mono_users cd st.users u _ hr,
      cover_set_add cd st.users u _ hdr⟩

theorem record_committer_cover (cd : List (String × String)) (st : RunState)
    (cu : Option GHUser) (h : users_cover st) :
    users_cover (record_committer cd st cu) := by
  obtain ⟨ha, hc, hd, hr, hdr⟩ := h
  unfold record_committer
  cases cu with
  | none => exact ⟨ha, hc, hd, hr, hdr⟩
  | some u =>
    exact ⟨cover_mono_users cd st.users u _ ha, cover_set_add cd st.users u _ hc,
      cover_mono_users cd st.users u _ hd, cover_mono_users cd st.users u _ hr,
      cover_mono_users cd st.users u _ hdr⟩

theorem record_author_cover (cd : List (String × String)) (st : RunState)
    (au : Option GHUser) (h : users_cover st) :
    users_cover (record_author cd st au) := by
  obtain ⟨ha, hc, hd, hr, hdr⟩ := h
  unfold record_author
  cases au with
  | none => exact ⟨ha, hc, hd, hr, hdr⟩
  | some u =>
    exact ⟨cover_set_add cd st.users u _ ha, cover_mono_users cd st.users u _ hc,
      cover_mono_users cd st.users u _ hd, cover_mono_users cd st.users u _ hr,
      cover_mono_users cd st.users u _ hdr⟩

theorem record_primary_cover (getCommit : String → Commit) (cd : List (String × String))
    (st : RunState) (pull : PullRequest) (h : users_cover st) :
    users_cover (record_primary getCommit cd st pull) := by
  unfold record_primary
  dsimp only
  have step2 : ∀ st₁ : RunState, users_cover st₁ →
      users_cover (pull.reviews.foldl (record_review_primary cd) st₁) := by
    intro st₁ h₁
    induction pull.reviews generalizing st₁ with
    | nil => exact h₁
    | cons r rs ih => exact ih _ (record_review_primary_cover cd st₁ r h₁)
  exact step2 _ (record_author_cover cd _ _ (record_committer_cover cd st _ h))

theorem record_docs_cover (cd : List (String × String)) (st : RunState)
    (pull : PullRequest) (h : users_cover st) :
    users_cover (record_docs cd st pull) := by
  unfold record_docs
  dsimp only
  have step2 : ∀ st₁ : RunState, users_cover st₁ →
      users_cover (pull.reviews.foldl (record_review_docs cd) st₁) := by
    intro st₁ h₁
    induction pull.reviews generalizing st₁ with
    | nil => exact h₁
    | cons r rs ih => exact ih _ (record_review_docs_cover cd st₁ r h₁)
  apply step2
  obtain ⟨ha, hc, hd, hr, hdr⟩ := h
  exact ⟨cover_mono_users cd st.users _ _ ha, cover_mono_users cd st.users _ _ hc,
    cover_set_add cd st.users _ _ hd, cover_mono_users cd st.users _ _ hr,
    cover_mono_users cd st.users _ _ hdr⟩

/-- Classification touches only the two section stores. -/
theorem classify_primary_fields (st : RunState) (pull : PullRequest) :
    (classify_primary st pull).users = st.users ∧
    (classify_primary st pull).authors = st.authors ∧
    (classify_primary st pull).committers = st.committers ∧
    (classify_primary st pull).docs_authors = st.docs_authors ∧
    (classify_primary st pull).docs_committers = st.docs_committers ∧
    (classify_primary st pull).reviewers = st.reviewers ∧
    (classify_primary st pull).docs_reviewers = st.docs_reviewers := by
  unfold classify_primary
  dsimp only
  split <;> exact ⟨rfl, rfl, rfl, rfl, rfl, rfl, rfl⟩

theorem classify_docs_fields (st : RunState) (pull : PullRequest) :
    (classify_docs st pull).users = st.users ∧
    (classify_docs st pull).authors = st.authors ∧
    (classify_docs st pull).committers = st.committers ∧
    (classify_docs st pull).docs_authors = st.docs_authors ∧
    (classify_docs st pull).docs_committers = st.docs_committers ∧
    (classify_docs st pull).reviewers = st.reviewers ∧
    (classify_docs st pull).docs_reviewers = st.docs_reviewers := by
  unfold classify_docs
  dsimp only
  split <;> exact ⟨rfl, rfl, rfl, rfl, rfl, rfl, rfl⟩

theorem process_primary_cover (getCommit : String → Commit) (cd : List (String × String))
    (st : RunState) (pull : PullRequest) (st' : RunState)
    (h : process_primary getCommit cd st pull = .ok st') (hc : users_cover st) :
    users_cover st' := by
  unfold process_primary at h
  by_cases hm : pull.merged
  · rw [if_neg (by simp [hm])] at h
    cases h
    have hrec := record_primary_cover getCommit cd st pull hc
    obtain ⟨f1, f2, f3, f4, _, f6, f7⟩ :=
      classify_primary_fields (record_primary getCommit cd st pull) pull
    unfold users_cover
    rw [f1, f2, f3, f4, f6, f7]
    exact hrec
  · rw [if_pos (by simp [hm])] at h
    cases h

theorem process_docs_cover (cd : List (String × String)) (st : RunState)
    (pull : PullRequest) (st' : RunState)
    (h : process_docs cd st pull = .ok st') (hc : users_cover st) :
    users_cover st' := by
  unfold process_docs at h
  by_cases hm : pull.merged
  · rw [if_neg (by simp [hm])] at h
    cases h
    have hrec := record_docs_cover cd st pull hc
    obtain ⟨f1, f2, f3, f4, _, f6, f7⟩ :=
      classify_docs_fields (record_docs cd st pull) pull
    unfold users_cover
    rw [f1, f2, f3, f4, f6, f7]
    exact hrec
  · rw [if_pos (by simp [hm])] at h
    cases h

theorem foldlM_except_inv {α : Type} (P : RunState → Prop)
    (f : RunState → α → Except String RunState)
    (hf : ∀ s a s', f s a = .ok s' → P s → P s') :
    ∀ (l : List α) (s s' : RunState), l.foldlM f s = .ok s' → P s → P s' := by
  intro l
  induction l with
  | nil =>
    intro s s' h hp
    simp only [List.foldlM_nil] at h
    cases h
    exact hp
  | cons a l ih =>
    intro s s' h hp
    rw [List.foldlM_cons] at h
    cases hfa : f s a with
    | error e => rw [hfa] at h; exact absurd h (by simp [Bind.bind, Except.bind])
    | ok s₁ =>
      rw [hfa] at h
      simp only [Bind.bind, Except.bind] at h
      exact ih s₁ s' h (hf s a s₁ hfa hp)

/-- A successful run decomposes into the two folds and the fix-up. -/
theorem generate_state_ok (getCommit : String → Commit) (cd : List (String × String))
    (primary docs : List PullRequest) (st : RunState)
    (h : generate_state getCommit cd primary docs = .ok st) :
    ∃ s₁ s₂, primary.foldlM (process_primary getCommit cd) initial_state = .ok s₁ ∧
      docs.foldlM (process_docs cd) s₁ = .ok s₂ ∧ st = finalize s₂ := by
  unfold generate_state at h
  cases h1 : primary.foldlM (process_primary getCommit cd) initial_state with
  | error e =>
    rw [h1] at h
    exact absurd h (by simp [Bind.bind, Except.bind])
  | ok s₁ =>
    rw [h1] at h
    simp only [Bind.bind, Except.bind] at h
    cases h2 : docs.foldlM (process_docs cd) s₁ with
    | error e =>
      rw [h2] at h
      exact absurd h (by simp [Except.bind])
    | ok s₂ =>
      rw [h2] at h
      simp only [Except.bind, pure, Except.pure] at h
      cases h
      exact ⟨s₁, s₂, rfl, h2, rfl⟩

/-- C10: on every successful run, each login in a rendered contributor
set (authors, reviewers, docs authors, docs reviewers, and the
new-contributors set for any prior-contributor set) is a key of the
`users` mapping, because every role-set insertion is preceded by
`add_to_users` for the same user; hence the `users[c]` lookup during
rendering never fails. -/
theorem c10_rendered_lookups_total (getCommit : String → Commit)
    (cd : List (String × String)) (primary docs : List PullRequest)
    (st : RunState) (old : List String)
    (h : generate_state getCommit cd primary docs = .ok st) :
    (∀ c ∈ st.authors, (st.users.lookup c).isSome) ∧
    (∀ c ∈ st.reviewers, (st.users.lookup c).isSome) ∧
    (∀ c ∈ st.docs_authors, (st.users.lookup c).isSome) ∧
    (∀ c ∈ st.docs_reviewers, (st.users.lookup c).isSome) ∧
    (∀ c ∈ new_contributors st old, (st.users.lookup c).isSome) := by
  obtain ⟨s₁, s₂, h1, h2, hfin⟩ := generate_state_ok getCommit cd primary docs st h
  have h0 : users_cover initial_state := by
    refine ⟨?_, ?_, ?_, ?_, ?_⟩ <;> intro c hc <;> cases hc
  have hcov₁ : users_cover s₁ :=
    foldlM_except_inv users_cover (process_primary getCommit cd)
      (fun s a s' hs => process_primary_cover getCommit cd s a s' hs) primary
      initial_state s₁ h1 h0
  have hcov₂ : users_cover s₂ :=
    foldlM_except_inv users_cover (process_docs cd)
      (fun s a s' hs => process_docs_cover cd s a s' hs) docs s₁ s₂ h2 hcov₁
  obtain ⟨ha, hc, hd, hr, hdr⟩ := hcov₂
  subst hfin
  have husers : (finalize s₂).users = s₂.users := rfl
  refine ⟨?_, ?_, ?_, ?_, ?_⟩
  · intro c hm
    exact husers ▸ ha c (mem_set_diff hm)
  · intro c hm
    exact husers ▸ hr c hm
  · intro c hm
    exact husers ▸ hd c (mem_set_diff hm)
  · intro c hm
    exact husers ▸ hdr c hm
  · intro c hm
    have hu := mem_set_diff hm
    rcases mem_set_union hu with h' | h'
    · exact husers ▸ ha c (mem_set_diff h')
    · exact husers ▸ hd c (mem_set_diff h')

/-- A one-pull-request run used to instantiate the run-level theorems. -/
def sample_pull : PullRequest :=
  ⟨1, "t", ["bug"], true, "sha", [⟨some ⟨"bob", none⟩⟩], ⟨"d", none⟩⟩

/-- `repo.get_commit` of the sample run: `alice` authored and committed. -/
def sample_get_commit : String → Commit :=
  fun _ => ⟨some ⟨"alice", some "Alice"⟩, some ⟨"alice", some "Alice"⟩⟩

/-- The state the sample run reaches. -/
def sample_state : RunState :=
  finalize (classify_primary (record_primary sample_get_commit [] initial_state sample_pull)
    sample_pull)

theorem c10_rendered_lookups_total_witness :
    generate_state sample_get_commit [] [sample_pull] [] = .ok sample_state ∧
    ((∀ c ∈ sample_state.authors, (sample_state.users.lookup c).isSome) ∧
     (∀ c ∈ sample_state.reviewers, (sample_state.users.lookup c).isSome) ∧
     (∀ c ∈ sample_state.docs_authors, (sample_state.users.lookup c).isSome) ∧
     (∀ c ∈ sample_state.docs_reviewers, (sample_state.users.lookup c).isSome) ∧
     (∀ c ∈ new_contributors sample_state [], (sample_state.users.lookup c).isSome)) :=
  ⟨rfl, c10_rendered_lookups_total sample_get_commit [] [sample_pull] []
    sample_state [] rfl⟩

/-! ### Claim C3 -/

theorem ne_of_data_get? (s t : String) (k : Nat)
    (h : s.data.get? k ≠ t.data.get? k) : s ≠ t :=
  fun e => h (by rw [e])

theorem ne_of_data_getLast? (s t : String)
    (h : s.data.getLast? ≠ t.data.getLast?) : s ≠ t :=
  fun e => h (by rw [e])

/-- The section names of the finished document, in rendering order. -/
def release_sections : List String :=
  initial_highlights.map Prod.fst

theorem dict_update_keys (hl : List (String × List (Nat × PRInfo))) (key : String)
    (f : List (Nat × PRInfo) → List (Nat × PRInfo)) :
    (dict_update hl key f).map Prod.fst = hl.map Prod.fst := by
  unfold dict_update
  rw [List.map_map]
  apply List.map_congr_left
  intro p _
  by_cases h : p.1 = key <;> simp [h]

theorem foldl_dict_update_keys (secs : List String)
    (f : List (Nat × PRInfo) → List (Nat × PRInfo))
    (hl : List (String × List (Nat × PRInfo))) :
    ((secs.foldl (fun hl sec => dict_update hl sec f) hl)).map Prod.fst
      = hl.map Prod.fst := by
  induction secs generalizing hl with
  | nil => rfl
  | cons s secs ih =>
    rw [List.foldl_cons, ih, dict_update_keys]

theorem classify_primary_keys (st : RunState) (pull : PullRequest) :
    (classify_primary st pull).highlights.map Prod.fst = st.highlights.map Prod.fst := by
  rw [(classify_primary_eq st pull).1, foldl_dict_update_keys]

theorem classify_docs_keys (st : RunState) (pull : PullRequest) :
    (classify_docs st pull).highlights.map Prod.fst = st.highlights.map Prod.fst := by
  unfold classify_docs
  dsimp only
  split
  · rfl
  · show (dict_update st.highlights "Documentation"
        (fun d => dict_insert d pull.number ⟨pull.title, "docs"⟩)).map Prod.fst
      = st.highlights.map Prod.fst
    exact dict_update_keys st.highlights _ _

theorem record_review_primary_highlights (cd : List (String × String)) (st : RunState)
    (r : Review) : (record_review_primary cd st r).highlights = st.highlights := by
  unfold record_review_primary
  cases r.user <;> rfl

theorem record_review_docs_highlights (cd : List (String × String)) (st : RunState)
    (r : Review) : (record_review_docs cd st r).highlights = st.highlights := by
  unfold record_review_docs
  cases r.user <;> rfl

theorem record_primary_highlights (getCommit : String → Commit)
    (cd : List (String × String)) (st : RunState) (pull : PullRequest) :
    (record_primary getCommit cd st pull).highlights = st.highlights := by
  unfold record_primary
  dsimp only
  have hfold : ∀ st₁ : RunState,
      ((pull.reviews.foldl (record_review_primary cd) st₁)).highlights = st₁.highlights := by
    intro st₁
    induction pull.reviews generalizing st₁ with
    | nil => rfl
    | cons r rs ih => rw [List.foldl_cons, ih, record_review_primary_highlights]
  rw [hfold]
  unfold record_author record_committer
  cases (getCommit pull.merge_commit_sha).author <;>
    cases (getCommit pull.merge_commit_sha).committer <;> rfl

theorem record_docs_highlights (cd : List (String × String)) (st : RunState)
    (pull : PullRequest) :
    (record_docs cd st pull).highlights = st.highlights := by
  unfold record_docs
  dsimp only
  have hfold : ∀ st₁ : RunState,
      ((pull.reviews.foldl (record_review_docs cd) st₁)).highlights = st₁.highlights := by
    intro st₁
    induction pull.reviews generalizing st₁ with
    | nil => rfl
    | cons r rs ih => rw [List.foldl_cons, ih, record_review_docs_highlights]
  rw [hfold]

/-- Every finished run's ordered section dict carries exactly the fixed
section names, in order. -/
theorem generate_state_keys (getCommit : String → Commit) (cd : List (String × String))
    (primary docs : List PullRequest) (st : RunState)
    (h : generate_state getCommit cd primary docs = .ok st) :
    st.highlights.map Prod.fst = release_sections := by
  obtain ⟨s₁, s₂, h1, h2, hfin⟩ := generate_state_ok getCommit cd primary docs st h
  have hkeys : s₂.highlights.map Prod.fst = initial_state.highlights.map Prod.fst := by
    have hk₁ : s₁.highlights.map Prod.fst = initial_state.highlights.map Prod.fst :=
      foldlM_except_inv (fun s => s.highlights.map Prod.fst = initial_state.highlights.map Prod.fst)
        (process_primary getCommit cd)
        (fun s a s' hs hp => by
          unfold process_primary at hs
          by_cases hm : a.merged
          · rw [if_neg (by simp [hm])] at hs
            cases hs
            rw [classify_primary_keys, record_primary_highlights]
            exact hp
          · rw [if_pos (by simp [hm])] at hs
            cases hs)
        primary initial_state s₁ h1 rfl
    exact foldlM_except_inv (fun s => s.highlights.map Prod.fst = initial_state.highlights.map Prod.fst)
      (process_docs cd)
      (fun s a s' hs hp => by
        unfold process_docs at hs
        by_cases hm : a.merged
        · rw [if_neg (by simp [hm])] at hs
          cases hs
          rw [classify_docs_keys, record_docs_highlights]
          exact hp
        · rw [if_pos (by simp [hm])] at hs
          cases hs)
      docs s₁ s₂ h2 hk₁
  subst hfin
  show (s₂.highlights ++ [("Other Pull Requests", s₂.other_pull_requests)]).map Prod.fst
    = release_sections
  rw [List.map_append, hkeys]
  rfl

theorem not_nc_of_get (s : String) (k : Nat) (c : Char)
    (hs : s.data.get? k = some c)
    (hne : ("## New Contributors").data.get? k ≠ some c) :
    s ≠ "## New Contributors" :=
  ne_of_data_get? s _ k (by rw [hs]; exact fun e => hne e.symm)

theorem not_nc_of_getLast (s : String) (c : Char)
    (hs : s.data.getLast? = some c) (hne : c ≠ 's') :
    s ≠ "## New Contributors" := by
  apply ne_of_data_getLast? s _
  rw [hs]
  have ht : ("## New Contributors").data.getLast? = some 's' := by decide
  rw [ht]
  exact fun e => hne (Option.some.inj e)

/-- The `"## New Contributors"` heading never occurs among the lines of a
role-set block: blanks, a counting heading ending in `)`, and bullets
starting with `-`. -/
theorem nc_not_in_render_role (users : List (String × String)) (nm : String)
    (s : List String) :
    "## New Contributors" ∉ render_role users nm s := by
  intro hmem
  unfold render_role at hmem
  rcases List.mem_cons.mp hmem with h | hmem
  · exact absurd h (by decide)
  rcases List.mem_cons.mp hmem with h | hmem
  · exact (not_nc_of_getLast _ ')'
      (by simp only [String.data_append]; rw [List.getLast?_append]; rfl)
      (by decide)) h.symm
  rcases List.mem_cons.mp hmem with h | hmem
  · exact absurd h (by decide)
  rcases List.mem_append.mp hmem with hmem | h
  · obtain ⟨c, _, heq⟩ := List.mem_map.mp hmem
    exact (not_nc_of_get _ 0 '-'
      (by simp only [contributor_line, String.data_append]; rfl) (by decide)) heq
  · exact absurd (List.mem_singleton.mp h) (by decide)

/-- Outside the conditional final block, no rendered line of a finished
run reads `"## New Contributors"`. -/
theorem nc_heading_not_elsewhere (milestone : String) (st : RunState)
    (hkeys : st.highlights.map Prod.fst = release_sections) :
    "## New Contributors" ∉
      ("# napari " ++ milestone) :: (intro_lines milestone ++ website_lines
        ++ render_sections st.highlights ++ render_contributors st) := by
  intro hmem
  rcases List.mem_cons.mp hmem with h | hmem
  · exact (not_nc_of_get _ 1 ' ' (by rw [String.data_append]; rfl) (by decide)) h.symm
  rcases List.mem_append.mp hmem with hmem | hmem
  rotate_left
  · -- render_contributors
    unfold render_contributors at hmem
    rcases List.mem_append.mp hmem with hmem | h
    rcases List.mem_append.mp hmem with hmem | h
    rcases List.mem_append.mp hmem with hmem | h
    · exact nc_not_in_render_role st.users "authors" st.authors hmem
    · exact nc_not_in_render_role st.users "reviewers" st.reviewers h
    · exact nc_not_in_render_role st.users "docs authors" st.docs_authors h
    · exact nc_not_in_render_role st.users "docs reviewers" st.docs_reviewers h
  rcases List.mem_append.mp hmem with hmem | hmem
  rotate_left
  · -- render_sections
    obtain ⟨p, hp, hin⟩ := List.mem_flatMap.mp hmem
    rcases List.mem_cons.mp hin with h | hin
    · -- the section heading: its name is one of the fixed ten
      have hd := congrArg String.data h
      rw [String.data_append] at hd
      have hd' : "## ".data ++ "New Contributors".data = "## ".data ++ p.1.data := hd
      have hp1 : p.1 = "New Contributors" :=
        (String.ext (List.append_cancel_left hd')).symm
      have hmem1 : p.1 ∈ st.highlights.map Prod.fst := List.mem_map_of_mem _ hp
      rw [hkeys, hp1] at hmem1
      exact absurd hmem1 (by decide)
    rcases List.mem_cons.mp hin with h | hin
    · exact absurd h (by decide)
    rcases List.mem_append.mp hin with hin | h
    · obtain ⟨e, _, heq⟩ := List.mem_map.mp hin
      exact (not_nc_of_get _ 0 '-'
        (by simp only [render_pr_line, String.data_append]; rfl) (by decide)) heq
    · exact absurd (List.mem_singleton.mp h) (by decide)
  rcases List.mem_append.mp hmem with hmem | hmem
  · -- intro lines
    simp only [intro_lines, List.mem_cons, List.not_mem_nil, or_false] at hmem
    rcases hmem with h | h | h | h | h | h | h
    · exact absurd h (by decide)
    · exact (not_nc_of_get _ 0 'W'
        (by simp only [String.data_append]; rfl) (by decide)) h.symm
    · exact absurd h (by decide)
    · exact absurd h (by decide)
    · exact absurd h (by decide)
    · exact absurd h (by decide)
    · exact absurd h (by decide)
  · -- website lines
    simp only [website_lines, List.mem_cons, List.not_mem_nil, or_false] at hmem
    rcases hmem with h | h | h | h <;> exact absurd h (by decide)

/-- C3 counterexample: a file-based run with one existing prior report
file whose text holds no `@login` mention: the prior file exists and the
new-contributors set is nonempty, yet the section is not rendered,
because the guard at line 254 tests the scanned `old_contributors` set
(and `new_contributors`), not the existence of a prior file. -/
theorem c3_counterexample :
    (some ["no prior mentions here"] : Option (List String)) ≠ none ∧
    (["no prior mentions here"] : List String) ≠ [] ∧
    old_contributors_for_mode (some ["no prior mentions here"]) = [] ∧
    new_contributors sample_state
      (old_contributors_for_mode (some ["no prior mentions here"])) ≠ [] ∧
    "## New Contributors" ∉
      render_notes "0.15.0" sample_state
        (old_contributors_for_mode (some ["no prior mentions here"])) := by
  refine ⟨by decide, by decide, by decide, by decide, by decide⟩

/-- C3 amended: the "New Contributors" section is present in the
rendered document iff the prior-report scan produced at least one
`@login` mention (which presupposes file-based output: in stream mode no
prior files are scanned and the scan result is empty) and the computed
new-contributors set is nonempty; the mere existence of a prior report
file is not sufficient. -/
theorem c3_amended (getCommit : String → Commit) (cd : List (String × String))
    (primary docs : List PullRequest) (st : RunState) (milestone : String)
    (mode : Option (List String))
    (h : generate_state getCommit cd primary docs = .ok st) :
    ("## New Contributors" ∈
        render_notes milestone st (old_contributors_for_mode mode) ↔
      (old_contributors_for_mode mode ≠ [] ∧
        new_contributors st (old_contributors_for_mode mode) ≠ [])) ∧
    old_contributors_for_mode none = [] := by
  refine ⟨?_, rfl⟩
  have hkeys := generate_state_keys getCommit cd primary docs st h
  constructor
  · intro hmem
    by_cases hcond : old_contributors_for_mode mode ≠ [] ∧
        new_contributors st (old_contributors_for_mode mode) ≠ []
    · exact hcond
    · exfalso
      have hempty : render_new_contributors st (old_contributors_for_mode mode) = [] := by
        unfold render_new_contributors
        dsimp only
        rw [if_neg hcond]
      unfold render_notes at hmem
      rw [hempty, List.append_nil] at hmem
      exact nc_heading_not_elsewhere milestone st hkeys hmem
  · intro hcond
    unfold render_notes
    apply List.mem_cons_of_mem
    apply List.mem_append_right
    unfold render_new_contributors
    dsimp only
    rw [if_pos hcond]
    exact List.mem_cons_self _ _

theorem c3_amended_witness :
    generate_state sample_get_commit [] [sample_pull] [] = .ok sample_state ∧
    (("## New Contributors" ∈
        render_notes "0.15.0" sample_state (old_contributors_for_mode none) ↔
      (old_contributors_for_mode none ≠ [] ∧
        new_contributors sample_state (old_contributors_for_mode none) ≠ [])) ∧
     old_contributors_for_mode none = []) :=
  ⟨rfl, c3_amended sample_get_commit [] [sample_pull] [] sample_state "0.15.0" none rfl⟩

/-! ### Claim C5: scanner lemmas -/

theorem scan_go_not_at (c : Char) (l : List Char) (hc : c ≠ '@') :
    scan_go (c :: l) none = scan_go l none := by
  simp [scan_go, hc]

theorem scan_none_of_no_at (l : List Char) (h : '@' ∉ l) : scan_go l none = [] := by
  induction l with
  | nil => rfl
  | cons c rest ih =>
    have hc : c ≠ '@' := by
      intro e
      exact h (by simp [e])
    rw [scan_go_not_at c rest hc]
    exact ih (fun hm => h (List.mem_cons_of_mem _ hm))

theorem scan_go_mention_run (tok : List Char) (h : ∀ c ∈ tok, is_mention_char c) :
    ∀ acc : List Char, scan_go tok (some acc) =
      if acc.reverse ++ tok = [] then [] else [acc.reverse ++ tok] := by
  induction tok with
  | nil =>
    intro acc
    show (if acc = [] then [] else [acc.reverse]) = _
    cases acc <;> simp
  | cons c tok ih =>
    intro acc
    have hc : is_mention_char c := h c (by simp)
    rw [show scan_go (c :: tok) (some acc) = scan_go tok (some (c :: acc)) from by
      simp [scan_go, hc]]
    rw [ih (fun x hx => h x (by simp [hx])) (c :: acc)]
    simp [List.reverse_cons, List.append_assoc]

theorem scan_tail_token (pre tok : List Char) (hpre : '@' ∉ pre)
    (htok : ∀ c ∈ tok, is_mention_char c) (hne : tok ≠ []) :
    scan_go (pre ++ '@' :: tok) none = [tok] := by
  induction pre with
  | nil =>
    rw [List.nil_append]
    rw [show scan_go ('@' :: tok) none = scan_go tok (some []) from by simp [scan_go]]
    rw [scan_go_mention_run tok htok []]
    simp [hne]
  | cons c pre ih =>
    have hc : c ≠ '@' := fun e => hpre (by simp [e])
    rw [List.cons_append, scan_go_not_at c _ hc]
    exact ih (fun hm => hpre (List.mem_cons_of_mem _ hm))

theorem scan_go_break (sep : Char) (hs1 : is_mention_char sep = false) (hs2 : sep ≠ '@')
    (ys : List Char) :
    ∀ (xs : List Char) (st : Option (List Char)),
      scan_go (xs ++ sep :: ys) st = scan_go (xs ++ [sep]) st ++ scan_go ys none := by
  intro xs
  induction xs with
  | nil =>
    intro st
    cases st with
    | none =>
      rw [List.nil_append, List.nil_append, scan_go_not_at sep ys hs2]
      rw [show scan_go [sep] none = [] from by simp [scan_go, hs2]]
      rfl
    | some acc =>
      by_cases ha : acc = [] <;> simp [scan_go, hs1, hs2, ha]
  | cons c xs ih =>
    intro st
    cases st with
    | none =>
      by_cases hc : c = '@'
      · simpa [scan_go, hc] using ih (some [])
      · simpa [scan_go, hc] using ih none
    | some acc =>
      by_cases hm : is_mention_char c
      · simpa [scan_go, hm] using ih (some (c :: acc))
      · by_cases hc : c = '@'
        · by_cases ha : acc = [] <;>
            simp [scan_go, hm, hc, ha, ih (some []),
              show is_mention_char '@' = false from by decide]
        · by_cases ha : acc = [] <;> simp [scan_go, hm, hc, ha, ih none]

theorem scan_go_end (sep : Char) (hs1 : is_mention_char sep = false) (hs2 : sep ≠ '@') :
    ∀ (xs : List Char) (st : Option (List Char)),
      scan_go (xs ++ [sep]) st = scan_go xs st := by
  intro xs
  induction xs with
  | nil =>
    intro st
    cases st with
    | none => simp [scan_go, hs2]
    | some acc => by_cases ha : acc = [] <;> simp [scan_go, hs1, hs2, ha]
  | cons c xs ih =>
    intro st
    cases st with
    | none =>
      by_cases hc : c = '@'
      · simpa [scan_go, hc] using ih (some [])
      · simpa [scan_go, hc] using ih none
    | some acc =>
      by_cases hm : is_mention_char c
      · simpa [scan_go, hm] using ih (some (c :: acc))
      · by_cases hc : c = '@'
        · by_cases ha : acc = [] <;>
            simp [scan_go, hm, hc, ha, ih (some []),
              show is_mention_char '@' = false from by decide]
        · by_cases ha : acc = [] <;> simp [scan_go, hm, hc, ha, ih none]

/-- Scanning the printed text (each line followed by a newline) finds
exactly the per-line matches, in order: `\n` is neither `@` nor a token
character, so no match crosses a line boundary. -/
theorem scan_join (lines : List String) :
    scan_mentions ((lines.map (fun l => l.data ++ ['\n'])).flatten)
      = lines.flatMap (fun l => scan_mentions l.data) := by
  induction lines with
  | nil => rfl
  | cons l lines ih =>
    rw [List.map_cons, List.flatten_cons, List.flatMap_cons]
    unfold scan_mentions
    rw [List.append_assoc, List.singleton_append]
    rw [scan_go_break '\n' (by decide) (by decide) _ l.data none]
    rw [scan_go_end '\n' (by decide) (by decide) l.data none]
    unfold scan_mentions at ih
    rw [ih]

/-! ### Claim C5: line contents -/

theorem nat_digits_fuel_digit (fuel : Nat) :
    ∀ n : Nat, ∀ c ∈ nat_digits_fuel fuel n, c.isDigit := by
  induction fuel with
  | zero =>
    intro n c hc
    cases hc
  | succ fuel ih =>
    intro n c hc
    have hdig : ∀ k : Nat, k < 10 → (Nat.digitChar k).isDigit := by decide
    unfold nat_digits_fuel at hc
    by_cases h : n < 10
    · rw [if_pos h] at hc
      rw [List.mem_singleton.mp hc]
      exact hdig n h
    · rw [if_neg h] at hc
      rcases List.mem_append.mp hc with h1 | h1
      · exact ih _ c h1
      · rw [List.mem_singleton.mp h1]
        exact hdig _ (Nat.mod_lt _ (by omega))

theorem no_at_nat_digits (n : Nat) : '@' ∉ nat_digits n := by
  intro h
  exact absurd (nat_digits_fuel_digit (n + 1) n '@' h) (by decide)

theorem no_at_append {a b : List Char} (ha : '@' ∉ a) (hb : '@' ∉ b) :
    '@' ∉ a ++ b := by
  intro h
  rcases List.mem_append.mp h with h | h
  · exact ha h
  · exact hb h

/-- A line with no `@` contributes no mention. -/
theorem scan_line_empty (l : String) (h : '@' ∉ l.data) :
    scan_mentions l.data = [] :=
  scan_none_of_no_at l.data h

/-- A contributor bullet contributes exactly its login: the only `@` of
the line stands right before the login, which runs to the end of the
line. -/
theorem scan_contributor_line (users : List (String × String)) (c : String)
    (hname : '@' ∉ (lookup_name users c).data)
    (hc : c.data ≠ []) (hcm : ∀ ch ∈ c.data, is_mention_char ch) :
    scan_mentions (contributor_line users c).data = [c.data] := by
  have hcat : '@' ∉ c.data := fun h => absurd (hcm '@' h) (by decide)
  have hlit : (") - @").data = [')', ' ', '-', ' ', '@'] := rfl
  have hdata : (contributor_line users c).data
      = ("- [".data ++ (lookup_name users c).data ++ "](https://".data ++ GH.data
          ++ "/".data ++ GH_USER.data ++ "/".data ++ GH_REPO.data
          ++ "/commits?author=".data ++ c.data ++ [')', ' ', '-', ' '])
        ++ '@' :: c.data := by
    unfold contributor_line
    simp only [String.data_append, hlit]
    simp [List.append_assoc]
  unfold scan_mentions
  rw [hdata]
  apply scan_tail_token _ _ ?_ hcm hc
  refine no_at_append (no_at_append (no_at_append (no_at_append (no_at_append
    (no_at_append (no_at_append (no_at_append (no_at_append
      (no_at_append (by decide) hname) (by decide)) (by decide)) (by decide))
      (by decide)) (by decide)) (by decide)) (by decide)) hcat) (by decide)

/-- The cleanliness conditions on a login list under which the rendered
`@login` tokens are exactly recoverable: the resolved display name holds
no `@`, and the login is a nonempty string of `[\w-]` characters (as all
GitHub logins are). -/
def good_logins (users : List (String × String)) (s : List String) : Prop :=
  ∀ c ∈ s, '@' ∉ (lookup_name users c).data ∧ c.data ≠ [] ∧
    ∀ ch ∈ c.data, is_mention_char ch

theorem good_logins_sort (users : List (String × String)) (s : List String)
    (h : good_logins users s) : good_logins users (sort_by_name users s) := by
  intro c hc
  have hperm : (sort_by_name users s).Perm s := List.perm_insertionSort _ s
  exact h c (hperm.mem_iff.mp hc)

theorem scan_bullets (users : List (String × String)) (logins : List String)
    (h : good_logins users logins) :
    ((logins.map (contributor_line users)).flatMap (fun l => scan_mentions l.data))
      = logins.map (fun c => c.data) := by
  induction logins with
  | nil => rfl
  | cons c cs ih =>
    rw [List.map_cons, List.flatMap_cons,
      scan_contributor_line users c (h c (by simp)).1 (h c (by simp)).2.1
        (h c (by simp)).2.2,
      List.map_cons, ih (fun x hx => h x (by simp [hx]))]
    rfl

theorem no_at_heading (nm : String) (k : Nat) (hnm : '@' ∉ nm.data) :
    '@' ∉ (("## " ++ nat_to_string k ++ " " ++ nm
      ++ " added to this release (alphabetical)")).data := by
  simp only [String.data_append]
  have hk : (nat_to_string k).data = nat_digits k := rfl
  rw [hk]
  exact no_at_append (no_at_append (no_at_append (no_at_append (by decide)
    (no_at_nat_digits k)) (by decide)) hnm) (by decide)

/-- A role-set block contributes exactly its sorted logins. -/
theorem scan_render_role (users : List (String × String)) (nm : String)
    (s : List String) (hnm : '@' ∉ nm.data) (hs : good_logins users s) :
    ((render_role users nm s).flatMap (fun l => scan_mentions l.data))
      = (sort_by_name users s).map (fun c => c.data) := by
  unfold render_role
  rw [List.flatMap_cons, List.flatMap_cons, List.flatMap_cons, List.flatMap_append]
  rw [scan_line_empty _ (by decide)]
  rw [scan_line_empty _ (no_at_heading nm s.length hnm)]
  rw [scan_bullets users (sort_by_name users s) (good_logins_sort users s hs)]
  have hone : (([""] : List String).flatMap (fun l => scan_mentions l.data)) = [] := rfl
  rw [hone]
  simp

theorem no_at_render_pr_line (n : Nat) (i : PRInfo)
    (h1 : '@' ∉ i.summary.data) (h2 : '@' ∉ i.repo.data) :
    '@' ∉ (render_pr_line n i).data := by
  intro hmem
  have hk : (nat_to_string n).data = nat_digits n := rfl
  unfold render_pr_line at hmem
  simp only [String.data_append, hk, List.append_assoc, List.mem_append] at hmem
  rcases hmem with h | h | h | h | h | h | h | h | h | h | h | h | h | h | h
  · exact absurd h (by decide)
  · exact h1 h
  · exact absurd h (by decide)
  · exact h2 h
  · exact absurd h (by decide)
  · exact no_at_nat_digits n h
  · exact absurd h (by decide)
  · exact absurd h (by decide)
  · exact absurd h (by decide)
  · exact absurd h (by decide)
  · exact absurd h (by decide)
  · exact h2 h
  · exact absurd h (by decide)
  · exact no_at_nat_digits n h
  · exact absurd h (by decide)

theorem scan_pr_bullets (entries : List (Nat × PRInfo))
    (h : ∀ e ∈ entries, '@' ∉ e.2.summary.data ∧ '@' ∉ e.2.repo.data) :
    ((entries.map (fun e => render_pr_line e.1 e.2)).flatMap
      (fun l => scan_mentions l.data)) = [] := by
  induction entries with
  | nil => rfl
  | cons e es ih =>
    rw [List.map_cons, List.flatMap_cons,
      scan_line_empty _ (no_at_render_pr_line e.1 e.2 (h e (by simp)).1
        (h e (by simp)).2),
      List.nil_append]
    exact ih (fun x hx => h x (by simp [hx]))

/-- A section block contributes no mention at all: headings, summaries
and links are `@`-free. -/
theorem scan_render_sections (hl : List (String × List (Nat × PRInfo)))
    (hsec : ∀ p ∈ hl, '@' ∉ p.1.data ∧
      ∀ e ∈ p.2, '@' ∉ e.2.summary.data ∧ '@' ∉ e.2.repo.data) :
    ((render_sections hl).flatMap (fun l => scan_mentions l.data)) = [] := by
  induction hl with
  | nil => rfl
  | cons p hl ih =>
    have hrest : ((render_sections hl).flatMap (fun l => scan_mentions l.data)) = [] :=
      ih (fun q hq => hsec q (by simp [hq]))
    unfold render_sections at hrest ⊢
    rw [List.flatMap_cons, List.flatMap_append, hrest, List.append_nil]
    rw [List.flatMap_cons, List.flatMap_cons, List.flatMap_append]
    rw [scan_line_empty _ (by
      simp only [String.data_append]
      exact no_at_append (by decide) (hsec p (by simp)).1)]
    rw [scan_line_empty _ (by decide)]
    rw [scan_pr_bullets p.2 (hsec p (by simp)).2]
    have hone : (([""] : List String).flatMap (fun l => scan_mentions l.data)) = [] := rfl
    rw [hone]
    simp

theorem scan_render_contributors (st : RunState)
    (hau : good_logins st.users st.authors)
    (hrev : good_logins st.users st.reviewers)
    (hda : good_logins st.users st.docs_authors)
    (hdr : good_logins st.users st.docs_reviewers) :
    ((render_contributors st).flatMap (fun l => scan_mentions l.data))
      = (sort_by_name st.users st.authors).map (fun c => c.data)
        ++ (sort_by_name st.users st.reviewers).map (fun c => c.data)
        ++ (sort_by_name st.users st.docs_authors).map (fun c => c.data)
        ++ (sort_by_name st.users st.docs_reviewers).map (fun c => c.data) := by
  unfold render_contributors
  rw [List.flatMap_append, List.flatMap_append, List.flatMap_append]
  rw [scan_render_role st.users "authors" st.authors (by decide) hau,
    scan_render_role st.users "reviewers" st.reviewers (by decide) hrev,
    scan_render_role st.users "docs authors" st.docs_authors (by decide) hda,
    scan_render_role st.users "docs reviewers" st.docs_reviewers (by decide) hdr]

theorem scan_render_new (st : RunState) (old : List String)
    (hnc : good_logins st.users (new_contributors st old)) :
    ((render_new_contributors st old).flatMap (fun l => scan_mentions l.data))
      = (if old ≠ [] ∧ new_contributors st old ≠ []
         then (sort_by_name st.users (new_contributors st old)).map (fun c => c.data)
         else []) := by
  unfold render_new_contributors
  dsimp only
  by_cases hcond : old ≠ [] ∧ new_contributors st old ≠ []
  · rw [if_pos hcond, if_pos hcond]
    rw [List.flatMap_cons, List.flatMap_cons, List.flatMap_cons, List.flatMap_cons]
    rw [scan_line_empty "## New Contributors" (by decide)]
    rw [scan_line_empty "" (by decide)]
    rw [scan_line_empty ("There are "
        ++ nat_to_string (new_contributors st old).length
        ++ " new contributors for this release:") (by
      simp only [String.data_append]
      have hk : (nat_to_string (new_contributors st old).length).data
          = nat_digits (new_contributors st old).length := rfl
      rw [hk]
      exact no_at_append (no_at_append (by decide)
        (no_at_nat_digits _)) (by decide))]
    rw [scan_bullets st.users (sort_by_name st.users (new_contributors st old))
      (good_logins_sort st.users _ hnc)]
    simp
  · rw [if_neg hcond, if_neg hcond]
    rfl

theorem scan_static_parts (milestone : String) (hml : '@' ∉ milestone.data) :
    scan_mentions (("# napari " ++ milestone)).data = [] ∧
    ((intro_lines milestone).flatMap (fun l => scan_mentions l.data)) = [] ∧
    ((website_lines).flatMap (fun l => scan_mentions l.data)) = [] := by
  refine ⟨?_, ?_, by decide⟩
  · apply scan_line_empty
    rw [String.data_append]
    exact no_at_append (by decide) hml
  · unfold intro_lines
    rw [List.flatMap_cons, List.flatMap_cons, List.flatMap_cons, List.flatMap_cons,
      List.flatMap_cons, List.flatMap_cons, List.flatMap_cons]
    rw [scan_line_empty "" (by decide)]
    rw [scan_line_empty ("We're happy to announce the release of napari "
        ++ milestone ++ "!") (by
      simp only [String.data_append]
      exact no_at_append (no_at_append (by decide) hml) (by decide))]
    rw [scan_line_empty
      "napari is a fast, interactive, multi-dimensional image viewer for Python."
      (by decide)]
    rw [scan_line_empty
      "It's designed for browsing, annotating, and analyzing large multi-dimensional"
      (by decide)]
    rw [scan_line_empty
      "images. It's built on top of Qt (for the GUI), vispy (for performant GPU-based"
      (by decide)]
    rw [scan_line_empty
      "rendering), and the scientific Python stack (numpy, scipy)." (by decide)]
    rfl

/-- The logins written as contributor bullets, in rendering order: the
four sorted role sets, then the new-contributor bullets when that block
is rendered. -/
def bullet_logins (st : RunState) (old : List String) : List String :=
  sort_by_name st.users st.authors ++ sort_by_name st.users st.reviewers
    ++ sort_by_name st.users st.docs_authors ++ sort_by_name st.users st.docs_reviewers
    ++ (if old ≠ [] ∧ new_contributors st old ≠ []
        then sort_by_name st.users (new_contributors st old) else [])

/-- C5 amended: provided no `@` occurs in the milestone, the section
names, the pull-request summaries and repo tags, or the resolved display
names, and every written login is a nonempty `[\w-]` string, re-scanning
the rendered document with the `@([\w-]+)` pattern recovers exactly the
logins written as contributor bullets, in order. -/
theorem c5_amended (milestone : String) (st : RunState) (old : List String)
    (hml : '@' ∉ milestone.data)
    (hsec : ∀ p ∈ st.highlights, '@' ∉ p.1.data ∧
      ∀ e ∈ p.2, '@' ∉ e.2.summary.data ∧ '@' ∉ e.2.repo.data)
    (hau : good_logins st.users st.authors)
    (hrev : good_logins st.users st.reviewers)
    (hda : good_logins st.users st.docs_authors)
    (hdr : good_logins st.users st.docs_reviewers)
    (hnc : good_logins st.users (new_contributors st old)) :
    mentions_of (notes_text (render_notes milestone st old)) = bullet_logins st old := by
  unfold mentions_of
  have hdoc : (notes_text (render_notes milestone st old)).data
      = (((render_notes milestone st old)).map (fun l => l.data ++ ['\n'])).flatten := rfl
  rw [hdoc, scan_join]
  unfold render_notes
  simp only [List.cons_append]
  rw [List.flatMap_cons, List.flatMap_append, List.flatMap_append, List.flatMap_append,
    List.flatMap_append]
  obtain ⟨ht, hi, hw⟩ := scan_static_parts milestone hml
  rw [ht, hi, hw, scan_render_sections st.highlights hsec,
    scan_render_contributors st hau hrev hda hdr, scan_render_new st old hnc]
  have hid : ∀ l : List String, (l.map (fun c => c.data)).map String.mk = l := by
    intro l
    rw [List.map_map]
    have hcongr : ∀ x ∈ l, (String.mk ∘ fun c => c.data) x = id x := fun x _ => rfl
    rw [List.map_congr_left hcongr, List.map_id]
  unfold bullet_logins
  by_cases hcond : old ≠ [] ∧ new_contributors st old ≠ []
  · rw [if_pos hcond, if_pos hcond]
    simp only [List.nil_append, List.append_nil, List.map_append, hid]
  · rw [if_neg hcond, if_neg hcond]
    simp only [List.nil_append, List.append_nil, List.map_append, hid]

/-- A merged pull request whose title carries an `@` mention. -/
def mention_pull : PullRequest :=
  ⟨2, "Thanks @bob for the report", ["bug"], true, "sha", [], ⟨"d", none⟩⟩

/-- The state of a run over that single pull request. -/
def mention_state : RunState :=
  finalize (classify_primary
    (record_primary sample_get_commit [] initial_state mention_pull) mention_pull)

set_option maxRecDepth 4000 in
/-- C5 counterexample: a pull-request title containing `@bob` is rendered
into a section bullet, and the re-scan of the document recovers `bob`
although no contributor bullet was written for that login — the
round-trip is not exact on the document the script actually writes. -/
theorem c5_counterexample :
    "bob" ∈ mentions_of (notes_text (render_notes "0.15.0" mention_state [])) ∧
    "bob" ∉ bullet_logins mention_state [] := by
  refine ⟨by decide, by decide⟩

set_option maxRecDepth 4000 in
theorem c5_amended_witness :
    ('@' ∉ ("0.15.0" : String).data) ∧
    mentions_of (notes_text (render_notes "0.15.0" sample_state []))
      = bullet_logins sample_state [] :=
  ⟨by decide, c5_amended "0.15.0" sample_state [] (by decide)
    (by decide)
    (by unfold good_logins; decide) (by unfold good_logins; decide)
    (by unfold good_logins; decide) (by unfold good_logins; decide)
    (by unfold good_logins; decide)⟩
